import Mathlib

/-!
Verification of the spring-stock ledger application (`src/app.py`).

The Python source is shallowly embedded: every embedded definition carries a
doc comment naming the source function and lines it translates.  Strings are
modelled as Lean `String`/`List Char` (ASCII fragment: Python's Unicode-aware
`str.upper`/`str.isalpha`/`str.strip` agree with the Lean ASCII versions on
every input appearing in the claims); machine integers are `Int` (Python ints
are unbounded, so no wrap-around is modelled); the Postgres tables are
modelled as in-memory values (an association list for the `springs` table, an
append-only list for the `transactions` table), with each helper that opens
its own connection and commits (`get_stock_row`, `set_stock`,
`add_transaction`) embedded as one atomic step on that state.  Timestamps
(`updated_at`, `created_at`) and the auto-increment `id` carry no information
used by any claim and are omitted; a transaction's position in the list plays
the role of its `sequence`.
-/

namespace Veer

/-! ## Python string primitives (ASCII fragment) -/

/-- Python `str.strip()` on a character list: drop whitespace from both ends.
Whitespace is Lean's `Char.isWhitespace` (space, tab, CR, LF), the ASCII
fragment of Python's whitespace set. -/
def stripList (l : List Char) : List Char :=
  ((l.dropWhile Char.isWhitespace).reverse.dropWhile Char.isWhitespace).reverse

/-- Python `str.strip()` at `String` level. -/
def stripString (s : String) : String :=
  String.mk (stripList s.toList)

/-! ## Identifier normalizers (`app.py` lines 51-59) -/

/-- Embeds `normalize_initials` (`app.py` lines 51-54): keep only alphabetic
characters, upper-case them, take the first two
(`"".join(ch for ch in (s or "") if ch.isalpha()).upper()`, then `[:2]`). -/
def normalize_initials (s : String) : String :=
  String.mk (((s.toList.filter Char.isAlpha).map Char.toUpper).take 2)

/-- Embeds `normalize_order_no` (`app.py` lines 57-59): remove the space
character, upper-case, strip outer whitespace
(`(s or "").replace(" ", "").upper().strip()`).  Note the Python code
replaces only `" "` (U+0020), not other whitespace. -/
def normalize_order_no (s : String) : String :=
  String.mk (stripList ((s.toList.filter (fun c => c != ' ')).map Char.toUpper))

/-! ## Regex validation (`app.py` lines 40-41)

`ORDER_RE = re.compile(r"^\d{3}-\d{2}[A-Z]\d+$")` and
`INITIALS_RE = re.compile(r"^[A-Z]{2}$")`, both used through `.match`.
Because the patterns are anchored with `^...$`, `re.match` accepts exactly
the strings whose whole text matches the body — except that Python's `$`
(without `re.MULTILINE`) also matches just before a single newline at the
very end of the string.  `pyMatchDollar` embeds that semantics. -/

/-- Whole-list match of the `ORDER_RE` body `\d{3}-\d{2}[A-Z]\d+`. -/
def orderCore : List Char → Bool
  | d1 :: d2 :: d3 :: dash :: y1 :: y2 :: ltr :: rest =>
      d1.isDigit && d2.isDigit && d3.isDigit && (dash == '-') &&
      y1.isDigit && y2.isDigit && ltr.isUpper &&
      !rest.isEmpty && rest.all Char.isDigit
  | _ => false

/-- Whole-list match of the `INITIALS_RE` body `[A-Z]{2}`. -/
def initialsCore : List Char → Bool
  | [a, b] => a.isUpper && b.isUpper
  | _ => false

/-- Python `re.match` semantics for a pattern `^body$`: the body matches the
whole string, or the whole string minus a single trailing newline (Python's
`$` matches at the end of the string or just before a final newline). -/
def pyMatchDollar (core : List Char → Bool) (l : List Char) : Bool :=
  core l || ((l.getLast? == some '\n') && core l.dropLast)

/-- Truthiness of `ORDER_RE.match(s)` (`app.py` line 40, used at line 401). -/
def validate_order_ref (s : String) : Bool :=
  pyMatchDollar orderCore s.toList

/-- Truthiness of `INITIALS_RE.match(s)` (`app.py` line 41, used at line 399). -/
def validate_initials (s : String) : Bool :=
  pyMatchDollar initialsCore s.toList

/-! ## Specification-side grammars (for the refinement claims C5/C6)

These two definitions follow the spec's words, not the code: the grammar
`\d{3}-\d{2}[A-Z]\d+` as a language of whole strings, and "exactly two
uppercase letters".  They are compared against the code-side validators. -/

/-- Modelled from the spec: a character list in the language
`\d{3}-\d{2}[A-Z]\d+` (three digits, a dash, two digits, one uppercase
letter, then at least one digit). -/
def SpecOrderList (l : List Char) : Prop :=
  ∃ (d1 d2 d3 y1 y2 ltr : Char) (ds : List Char),
    l = d1 :: d2 :: d3 :: '-' :: y1 :: y2 :: ltr :: ds ∧
    d1.isDigit = true ∧ d2.isDigit = true ∧ d3.isDigit = true ∧
    y1.isDigit = true ∧ y2.isDigit = true ∧ ltr.isUpper = true ∧
    ds ≠ [] ∧ (∀ c ∈ ds, c.isDigit = true)

/-- Modelled from the spec: a character list that is exactly two uppercase
letters. -/
def SpecInitialsList (l : List Char) : Prop :=
  ∃ a b, l = [a, b] ∧ a.isUpper = true ∧ b.isUpper = true

/-! ## Scanner payloads (`app.py` lines 62-77)

`normalize_scan_value(qr_result)` receives whatever the scanner component
returns: `None`, a string, a dict, or some other object.  `PyVal` models the
Python values that can reach it; `PyEntries` is the entry list of a dict
(keys unique, as in a Python dict). -/

mutual
/-- Model of a Python value handed to `normalize_scan_value`. -/
inductive PyVal : Type where
  | pyNone : PyVal
  | pyS : String → PyVal
  | pyI : Int → PyVal
  | pyDict : PyEntries → PyVal
/-- Entry list of a Python dict value. -/
inductive PyEntries : Type where
  | nil : PyEntries
  | cons : String → PyVal → PyEntries → PyEntries
end

/-- Python truthiness of a dict entry list: empty dicts are falsy. -/
def pyEntriesEmpty : PyEntries → Bool
  | .nil => true
  | .cons _ _ _ => false

/-- Python truthiness (`if v:`) of the modelled values: `None`, `""`, `0`
and `\x7b\x7d` are falsy, everything else truthy. -/
def pyTruthy : PyVal → Bool
  | .pyNone => false
  | .pyS s => s != ""
  | .pyI n => n != 0
  | .pyDict es => !pyEntriesEmpty es

/-- Python `dict.get(k)`: the value at key `k`, or `None`-as-`none` when the
key is absent. -/
def dictGet : PyEntries → String → Option PyVal
  | .nil, _ => none
  | .cons k v rest, key => if k = key then some v else dictGet rest key

mutual
/-- Python `repr` of a modelled value (string escaping inside `repr` of a
string is not modelled; no claim depends on it). -/
def pyRepr : PyVal → String
  | .pyNone => "None"
  | .pyS s => "\x27" ++ s ++ "\x27"
  | .pyI n => toString n
  | .pyDict es => "\x7b" ++ pyReprEntries es true ++ "\x7d"
/-- Python `repr` of the entries of a dict, comma-separated. -/
def pyReprEntries : PyEntries → Bool → String
  | .nil, _ => ""
  | .cons k v rest, first =>
      (if first then "" else ", ") ++ "\x27" ++ k ++ "\x27: " ++ pyRepr v ++
        pyReprEntries rest false
end

/-- Python `str()` of a modelled value: a string is itself, everything else
renders as its `repr` (`str(None) = "None"`, `str(3) = "3"`,
`str(d) = repr(d)` for a dict). -/
def pyStr : PyVal → String
  | .pyS s => s
  | v => pyRepr v

/-- Candidate field names tried, in order, on a dict payload
(`app.py` line 72). -/
def candidateKeys : List String :=
  ["text", "data", "raw", "result", "value"]

/-- Embeds the candidate loop of `normalize_scan_value` (`app.py` lines
72-75): for each key in order, `v = qr_result.get(k)`; the first truthy
value is taken (`if v: return str(v).strip()`), falsy or absent values are
skipped. -/
def firstTruthyCandidate (es : PyEntries) : List String → Option PyVal
  | [] => none
  | k :: ks =>
      match dictGet es k with
      | some v => if pyTruthy v then some v else firstTruthyCandidate es ks
      | none => firstTruthyCandidate es ks

/-- Embeds `normalize_scan_value` (`app.py` lines 62-77): `None` becomes
`""`; a string is stripped; a dict yields the first truthy candidate field
rendered with `str` and stripped, falling back to `str` of the whole dict;
any other value is rendered with `str` and stripped. -/
def normalize_scan_value : PyVal → String
  | .pyNone => ""
  | .pyS s => stripString s
  | .pyDict es =>
      match firstTruthyCandidate es candidateKeys with
      | some v => stripString (pyStr v)
      | none => stripString (pyStr (.pyDict es))
  | .pyI n => stripString (pyStr (.pyI n))

/-! ## Ledger store (`app.py` lines 106-178)

One row of the `springs` table is a `(spring_no, qty_on_hand)` pair; the
`transactions` table is an append-only list.  Each of `get_stock_row`,
`set_stock` and `add_transaction` opens its own connection and commits on
its own (`app.py` lines 131-158), so each is one atomic step on the state,
and nothing groups the steps of `receive_stock`/`use_stock` into a larger
transaction. -/

/-- One row of the `transactions` table (`app.py` lines 116-127);
`created_at` and the serial `id` are omitted, list position standing in for
the sequence. -/
structure Tx where
  txType : String
  spring_no : String
  qty : Int
  initials : Option String
  order_no : Option String
  note : Option String
deriving DecidableEq

/-- The database state: the `springs` table (one row per spring number) and
the `transactions` log. -/
structure DB where
  springs : List (String × Int)
  transactions : List Tx
deriving DecidableEq

/-- The freshly created, empty database (`ensure_tables`, lines 106-128). -/
def emptyDB : DB :=
  { springs := [], transactions := [] }

/-- First row with the given key of the `springs` table, if any. -/
def lookupSpring : List (String × Int) → String → Option Int
  | [], _ => none
  | (k, v) :: rest, p => if k = p then some v else lookupSpring rest p

/-- Upsert on the `springs` table: the row semantics of
`INSERT ... ON CONFLICT (spring_no) DO UPDATE` (`app.py` lines 142-147). -/
def upsertSpring : List (String × Int) → String → Int → List (String × Int)
  | [], p, v => [(p, v)]
  | (k, w) :: rest, p, v =>
      if k = p then (p, v) :: rest else (k, w) :: upsertSpring rest p v

/-- Embeds `get_stock_row` (`app.py` lines 131-135): one committed read. -/
def get_stock_row (db : DB) (spring_no : String) : Option (String × Int) :=
  (lookupSpring db.springs spring_no).map (fun v => (spring_no, v))

/-- The expression `row[1] if row else 0` (`app.py` lines 163 and 172):
the current balance, defaulting to 0 for an unknown spring. -/
def rowQtyOrZero (db : DB) (spring_no : String) : Int :=
  match get_stock_row db spring_no with
  | some row => row.2
  | none => 0

/-- Embeds `set_stock` (`app.py` lines 138-148): one committed upsert
(`updated_at` not modelled). -/
def set_stock (db : DB) (spring_no : String) (qty_on_hand : Int) : DB :=
  { db with springs := upsertSpring db.springs spring_no qty_on_hand }

/-- Embeds `add_transaction` (`app.py` lines 151-158): one committed append
to the log. -/
def add_transaction (db : DB) (tx_type : String) (spring_no : String)
    (qty : Int) (initials order_no note : Option String) : DB :=
  { db with
    transactions := db.transactions ++
      [{ txType := tx_type, spring_no := spring_no, qty := qty,
         initials := initials, order_no := order_no, note := note }] }

/-- Embeds `receive_stock` (`app.py` lines 161-167), returning the new state
together with `(current, new_qty)`. -/
def receive_stock (db : DB) (spring_no : String) (qty : Int)
    (note : Option String) : DB × Int × Int :=
  let current := rowQtyOrZero db spring_no
  let new_qty := current + qty
  let db1 := set_stock db spring_no new_qty
  let db2 := add_transaction db1 "RECEIVE" spring_no qty none none note
  (db2, current, new_qty)

/-- Embeds `use_stock` (`app.py` lines 170-178): insufficient stock raises
`ValueError` before any write (modelled as `Except.error` with the exact
message the code formats); otherwise the balance is written and a `USE`
transaction appended, returning `(current, new_qty)`. -/
def use_stock (db : DB) (spring_no : String) (qty : Int)
    (initials order_no : String) : Except String (DB × Int × Int) :=
  let current := rowQtyOrZero db spring_no
  if current < qty then
    .error ("Onvoldoende voorraad: " ++ spring_no ++ " (huidig " ++
      toString current ++ ", gevraagd " ++ toString qty ++ ")")
  else
    let new_qty := current - qty
    let db1 := set_stock db spring_no new_qty
    let db2 := add_transaction db1 "USE" spring_no qty (some initials)
      (some order_no) none
    .ok (db2, current, new_qty)

/-- Balance of a spring as stored in the `springs` table (0 when absent). -/
def balanceOf (db : DB) (p : String) : Int :=
  (lookupSpring db.springs p).getD 0

/-- Signed contribution of one logged transaction to the balance of spring
`p`: `RECEIVE` adds its quantity, `USE` subtracts it. -/
def txDelta (p : String) (tx : Tx) : Int :=
  if tx.spring_no = p then
    if tx.txType = "RECEIVE" then tx.qty
    else if tx.txType = "USE" then -tx.qty
    else 0
  else 0

/-- Sum of `RECEIVE` quantities minus sum of `USE` quantities over the
movement log, for spring `p`. -/
def logSum (db : DB) (p : String) : Int :=
  (db.transactions.map (txDelta p)).sum

/-! ## Operation sequences for the conservation claim (C1) -/

/-- One requested stock operation, routed through `receive_stock` or
`use_stock`. -/
inductive StockOp : Type where
  | receive (p : String) (q : Int) (note : Option String)
  | consume (p : String) (q : Int) (initials order_no : String)
deriving DecidableEq

/-- Quantity of a requested operation. -/
def opQty : StockOp → Int
  | .receive _ q _ => q
  | .consume _ q _ _ => q

/-- Apply one operation the way the app does: `receive_stock` always
commits; a `use_stock` call that raises leaves the state untouched. -/
def applyOp (db : DB) : StockOp → DB
  | .receive p q note => (receive_stock db p q note).1
  | .consume p q ini ord =>
      match use_stock db p q ini ord with
      | .ok r => r.1
      | .error _ => db

/-- Run a sequence of operations in order. -/
def runOps (db : DB) (ops : List StockOp) : DB :=
  ops.foldl applyOp db

/-- Concrete operation sequence used to witness the conservation theorem:
receive 5, consume 3, then a consume 10 that is rejected. -/
def demoOps : List StockOp :=
  [.receive "P" 5 none,
   .consume "P" 3 "PV" "005-26R01",
   .consume "P" 10 "PV" "005-26R01"]

/-! ## Interleaved execution of two `use_stock` calls (C3)

`use_stock` (`app.py` lines 170-178) is not one transaction: its read
(`get_stock_row`), its balance write (`set_stock`) and its log append
(`add_transaction`) each open a fresh connection and commit independently
(`app.py` lines 131-158).  Between two such steps a second request can run
its own steps.  `raceDB0`/`raceDemoDB` spell out one concrete interleaving
of two `use_stock("P", 3, ...)` calls against a balance of 5: both calls
read 5 (both pass the `current < qty` check, so neither raises), then both
write and append.  Every individual step below is exactly the step the
source performs at the given line. -/

/-- Initial state for the race: one receipt of 5 for spring `"P"`. -/
def raceDB0 : DB :=
  (receive_stock emptyDB "P" 5 none).1

/-- The balance call A reads at `app.py` lines 171-172 (before B writes). -/
def raceReadA : Int :=
  rowQtyOrZero raceDB0 "P"

/-- The balance call B reads at `app.py` lines 171-172, also against
`raceDB0`: B's read commits before A's write. -/
def raceReadB : Int :=
  rowQtyOrZero raceDB0 "P"

/-- State after call A finishes its `set_stock` (line 176) and
`add_transaction` (line 177) with the balance it read. -/
def raceDBAfterA : DB :=
  add_transaction (set_stock raceDB0 "P" (raceReadA - 3)) "USE" "P" 3
    (some "AA") (some "005-26R01") none

/-- State after call B finishes its `set_stock` and `add_transaction` with
the stale balance it read before A wrote. -/
def raceDemoDB : DB :=
  add_transaction (set_stock raceDBAfterA "P" (raceReadB - 3)) "USE" "P" 3
    (some "BB") (some "005-26R01") none

/-! ## Email notification (`app.py` lines 210-234) -/

/-- The six environment variables `send_email` reads (`app.py` lines
211-216); `none` models an unset variable. -/
structure EmailEnv where
  email_to : Option String
  email_from : Option String
  smtp_host : Option String
  smtp_port : Option String
  smtp_user : Option String
  smtp_pass : Option String
deriving DecidableEq

/-- Python truthiness of an optional environment value: unset or empty is
falsy. -/
def truthyStr (o : Option String) : Bool :=
  o.getD "" != ""

/-- The `all([...])` configuration check of `send_email`
(`app.py` line 218). -/
def emailEnvComplete (e : EmailEnv) : Bool :=
  truthyStr e.email_to && truthyStr e.email_from && truthyStr e.smtp_host &&
    truthyStr e.smtp_port && truthyStr e.smtp_user && truthyStr e.smtp_pass

/-- Embeds `send_email` (`app.py` lines 210-234).  The SMTP exchange itself
is an external effect, modelled by the `smtp` argument: `Except.ok ()` when
the `try` block succeeds, `Except.error e` when it raises.  Missing
configuration returns a disabled result; an exception is caught and returned
as `(False, "Mail fout: ...")`; success returns `(True, "Mail verstuurd.")`.
The function never propagates an exception. -/
def send_email (env : EmailEnv) (smtp : Except String Unit) : Bool × String :=
  if emailEnvComplete env then
    match smtp with
    | .ok _ => (true, "Mail verstuurd.")
    | .error e => (false, "Mail fout: " ++ e)
  else
    (false, "SMTP/email vars ontbreken (mail niet verstuurd).")

/-! ## Session state and the consumption page (`app.py` lines 308-443) -/

/-- The per-session state the consumption page reads and writes:
`st.session_state["spring_no"]`, `["last_scanned"]`, and the two persisted
form fields (`app.py` lines 309-317).  The cached `last_use_success` dict is
returned as the submit outcome instead of being stored. -/
structure Session where
  spring_no : String
  last_scanned : String
  initials_raw : String
  order_raw : String
deriving DecidableEq

/-- Embeds the scan gating (`app.py` lines 350-357): the scanner value is
normalized; a non-empty value different from `last_scanned` arms the session
(sets `spring_no` and `last_scanned`) and plays the beep exactly once; the
returned `Bool` is whether `play_beep()` ran. -/
def scanStep (sess : Session) (qr_raw : PyVal) : Session × Bool :=
  let qr_text := normalize_scan_value qr_raw
  if qr_text ≠ "" then
    if qr_text ≠ sess.last_scanned then
      ({ sess with spring_no := qr_text, last_scanned := qr_text }, true)
    else
      (sess, false)
  else
    (sess, false)

/-- Outcome of one submit of the consumption form. -/
inductive UseOutcome : Type where
  | validationErr (errors : List String)
  | insufficient (msg : String)
  | success (before after : Int) (email_ok : Bool) (email_msg : String)
deriving DecidableEq

/-- Result of one submit: the database, the session, the outcome shown to
the operator, and how many notification attempts were made. -/
structure SubmitResult where
  db : DB
  sess : Session
  outcome : UseOutcome
  emailAttempts : Nat
deriving DecidableEq

/-- Embeds the error collection of the submit handler (`app.py` lines
396-404): all four rules are checked and every violated rule appends its
message — there is no early exit. -/
def useFormErrors (spring_clean initials_clean order_clean : String)
    (qty : Int) : List String :=
  (if spring_clean = "" then ["Scan eerst een QR-code (veernummer ontbreekt)."]
   else []) ++
  (if validate_initials initials_clean then []
   else ["Initialen moeten 2 letters zijn (bv. PV)."]) ++
  (if validate_order_ref order_clean then []
   else ["Ordernummer ongeldig. Verwacht bv. 005-26R01 (ddd-yyLnnn...)."]) ++
  (if qty < 1 then ["Aantal moet 1 of groter zijn."] else [])

/-- Embeds the submit handler of the consumption form (`app.py` lines
391-443): normalize the inputs, collect all validation errors (displaying
them mutates nothing), otherwise call `use_stock`; a `ValueError` is caught
and displayed with the session untouched; on success `send_email` is called
exactly once, the result dict is recorded, and `spring_no`/`last_scanned`
are reset for the next scan (lines 436-437).  The UI-only pieces (`st.error`,
`st.rerun`, the success banner) carry no state and are not modelled. -/
def useFormSubmit (db : DB) (sess : Session) (env : EmailEnv)
    (smtp : Except String Unit) (qty : Int) : SubmitResult :=
  if useFormErrors (stripString sess.spring_no)
      (normalize_initials sess.initials_raw)
      (normalize_order_no sess.order_raw) qty = [] then
    match use_stock db (stripString sess.spring_no) qty
        (normalize_initials sess.initials_raw)
        (normalize_order_no sess.order_raw) with
    | .error msg =>
        { db := db, sess := sess, outcome := .insufficient msg,
          emailAttempts := 0 }
    | .ok (db2, before, after) =>
        { db := db2,
          sess := { sess with spring_no := "", last_scanned := "" },
          outcome := .success before after (send_email env smtp).1
            (send_email env smtp).2,
          emailAttempts := 1 }
  else
    { db := db, sess := sess,
      outcome := .validationErr
        (useFormErrors (stripString sess.spring_no)
          (normalize_initials sess.initials_raw)
          (normalize_order_no sess.order_raw) qty),
      emailAttempts := 0 }

/-! ## Label generation (`app.py` lines 267-299) -/

/-- One rendered label page: the visible text drawn at line 281 and the
payload encoded in the QR image drawn at line 289 (the QR object is built
once from `spring_no` at lines 271-274 and reused on every page).  Physical
layout (page size, offsets) carries no claim-relevant information. -/
structure LabelPage where
  textLabel : String
  qrPayload : String
deriving DecidableEq

/-- Embeds `make_label_pdf` (`app.py` lines 267-299) at the page level: the
loop `for _ in range(count)` emits one page per iteration and `range` of a
non-positive count is empty, so the document has `count.toNat` pages.  The
function performs no validation of `count`. -/
def make_label_pdf (spring_no : String) (count : Int) : List LabelPage :=
  List.replicate count.toNat { textLabel := spring_no, qrPayload := spring_no }

/-- The ledger-consistency invariant of the spec: every balance equals the
signed sum of its movement log and is non-negative. -/
def LedgerInv (db : DB) : Prop :=
  ∀ p, balanceOf db p = logSum db p ∧ 0 ≤ balanceOf db p

/-! ## Lemmas about the ledger store -/

theorem lookupSpring_upsert_self (l : List (String × Int)) (p : String)
    (v : Int) : lookupSpring (upsertSpring l p v) p = some v := by
  induction l with
  | nil => simp [upsertSpring, lookupSpring]
  | cons hd tl ih =>
      obtain ⟨k, w⟩ := hd
      by_cases h : k = p
      · simp [upsertSpring, h, lookupSpring]
      · simp [upsertSpring, h, lookupSpring, ih]

theorem lookupSpring_upsert_ne (l : List (String × Int)) (p p' : String)
    (v : Int) (h : p' ≠ p) :
    lookupSpring (upsertSpring l p v) p' = lookupSpring l p' := by
  induction l with
  | nil => simp [upsertSpring, lookupSpring, Ne.symm h]
  | cons hd tl ih =>
      obtain ⟨k, w⟩ := hd
      by_cases hk : k = p
      · subst hk
        simp [upsertSpring, lookupSpring, Ne.symm h]
      · simp [upsertSpring, hk, lookupSpring, ih]

theorem rowQtyOrZero_eq (db : DB) (p : String) :
    rowQtyOrZero db p = balanceOf db p := by
  unfold rowQtyOrZero get_stock_row balanceOf
  cases lookupSpring db.springs p <;> simp

theorem balanceOf_set_self (db : DB) (p : String) (v : Int) :
    balanceOf (set_stock db p v) p = v := by
  simp [balanceOf, set_stock, lookupSpring_upsert_self]

theorem balanceOf_set_ne (db : DB) (p p' : String) (v : Int) (h : p' ≠ p) :
    balanceOf (set_stock db p v) p' = balanceOf db p' := by
  simp [balanceOf, set_stock, lookupSpring_upsert_ne _ _ _ _ h]

theorem balanceOf_add_transaction (db : DB) (t p : String) (q : Int)
    (i o n : Option String) (p' : String) :
    balanceOf (add_transaction db t p q i o n) p' = balanceOf db p' := rfl

theorem logSum_set_stock (db : DB) (p : String) (v : Int) (p' : String) :
    logSum (set_stock db p v) p' = logSum db p' := rfl

theorem logSum_add_transaction (db : DB) (t p : String) (q : Int)
    (i o n : Option String) (p' : String) :
    logSum (add_transaction db t p q i o n) p' =
      logSum db p' + txDelta p' ⟨t, p, q, i, o, n⟩ := by
  simp [logSum, add_transaction]

theorem ledgerInv_empty : LedgerInv emptyDB := by
  intro p
  simp [balanceOf, logSum, emptyDB, lookupSpring]

theorem ledgerInv_applyOp (db : DB) (op : StockOp) (hq : 1 ≤ opQty op)
    (hInv : LedgerInv db) : LedgerInv (applyOp db op) := by
  cases op with
  | receive p q note =>
      intro p'
      simp only [opQty] at hq
      have hcur : rowQtyOrZero db p = balanceOf db p := rowQtyOrZero_eq db p
      simp only [applyOp, receive_stock]
      rw [balanceOf_add_transaction, logSum_add_transaction, logSum_set_stock]
      by_cases hp : p' = p
      · subst hp
        rw [balanceOf_set_self, hcur]
        have h1 := (hInv p').1
        have h2 := (hInv p').2
        have hd : txDelta p' ⟨"RECEIVE", p', q, none, none, note⟩ = q := by
          simp [txDelta]
        rw [hd]
        constructor
        · omega
        · omega
      · rw [balanceOf_set_ne _ _ _ _ hp]
        have hd : txDelta p' ⟨"RECEIVE", p, q, none, none, note⟩ = 0 := by
          simp [txDelta, Ne.symm hp]
        rw [hd]
        have h1 := (hInv p').1
        have h2 := (hInv p').2
        constructor
        · omega
        · omega
  | consume p q ini ord =>
      intro p'
      have hcur : rowQtyOrZero db p = balanceOf db p := rowQtyOrZero_eq db p
      by_cases hlt : rowQtyOrZero db p < q
      · simp only [applyOp, use_stock, if_pos hlt]
        exact hInv p'
      · simp only [applyOp, use_stock, if_neg hlt]
        rw [balanceOf_add_transaction, logSum_add_transaction, logSum_set_stock]
        by_cases hp : p' = p
        · subst hp
          rw [balanceOf_set_self, hcur]
          have h1 := (hInv p').1
          have h2 := (hInv p').2
          rw [hcur] at hlt
          have hd : txDelta p' ⟨"USE", p', q, some ini, some ord, none⟩ = -q := by
            simp [txDelta]
          rw [hd]
          constructor
          · omega
          · omega
        · rw [balanceOf_set_ne _ _ _ _ hp]
          have hd : txDelta p' ⟨"USE", p, q, some ini, some ord, none⟩ = 0 := by
            simp [txDelta, Ne.symm hp]
          rw [hd]
          have h1 := (hInv p').1
          have h2 := (hInv p').2
          constructor
          · omega
          · omega

theorem ledgerInv_runOps (ops : List StockOp) (db : DB)
    (hq : ∀ op ∈ ops, 1 ≤ opQty op) (hInv : LedgerInv db) :
    LedgerInv (runOps db ops) := by
  induction ops generalizing db with
  | nil => exact hInv
  | cons op rest ih =>
      simp only [runOps, List.foldl_cons]
      exact ih (applyOp db op)
        (fun o ho => hq o (List.mem_cons_of_mem _ ho))
        (ledgerInv_applyOp db op (hq op (List.mem_cons_self _ _)) hInv)

/-! ## Claim theorems -/

/-- C1: for every part and every sequence of RECEIVE/CONSUME requests with
positive quantities routed through `receive_stock` and `use_stock`
(a rejected `use_stock` leaves the state untouched), after each step — i.e.
after every prefix of the sequence — the stored `qty_on_hand` of the part
equals the sum of RECEIVE quantities minus the sum of USE quantities logged
for it, and is non-negative. -/
theorem C1_conservation (ops : List StockOp)
    (h : ∀ op ∈ ops, 1 ≤ opQty op) (p : String) (n : Nat) :
    balanceOf (runOps emptyDB (ops.take n)) p =
      logSum (runOps emptyDB (ops.take n)) p ∧
    0 ≤ balanceOf (runOps emptyDB (ops.take n)) p :=
  ledgerInv_runOps (ops.take n) emptyDB
    (fun op hop => h op (List.mem_of_mem_take hop)) ledgerInv_empty p

/-- Witness for C1 on the concrete sequence `demoOps` (receive 5, consume 3,
rejected consume 10). -/
theorem C1_conservation_witness :
    (∀ op ∈ demoOps, 1 ≤ opQty op) ∧
    (balanceOf (runOps emptyDB (demoOps.take 3)) "P" =
        logSum (runOps emptyDB (demoOps.take 3)) "P" ∧
      0 ≤ balanceOf (runOps emptyDB (demoOps.take 3)) "P") :=
  ⟨by decide, C1_conservation demoOps (by decide) "P" 3⟩

/-- C2: for every part and every quantity strictly greater than the current
balance (0 for an unknown part), `use_stock` raises before any write — the
`ValueError` the source formats plays the role of `InsufficientStock` — and
the state is unchanged: same database, same balance, same number of logged
movements. -/
theorem C2_insufficient_noop (db : DB) (p ini ord : String) (q : Int)
    (h : balanceOf db p < q) :
    use_stock db p q ini ord =
      .error ("Onvoldoende voorraad: " ++ p ++ " (huidig " ++
        toString (balanceOf db p) ++ ", gevraagd " ++ toString q ++ ")") ∧
    applyOp db (.consume p q ini ord) = db ∧
    balanceOf (applyOp db (.consume p q ini ord)) p = balanceOf db p ∧
    (applyOp db (.consume p q ini ord)).transactions.length =
      db.transactions.length := by
  have hcur : rowQtyOrZero db p = balanceOf db p := rowQtyOrZero_eq db p
  refine ⟨?_, ?_, ?_, ?_⟩ <;>
    (simp only [use_stock, applyOp, hcur]; rw [if_pos h])

/-- Witness for C2: with 5 on hand, consuming 10 fails with the formatted
message and mutates nothing. -/
theorem C2_insufficient_noop_witness :
    balanceOf (receive_stock emptyDB "P" 5 none).1 "P" < 10 ∧
    use_stock (receive_stock emptyDB "P" 5 none).1 "P" 10 "PV" "005-26R01" =
      .error "Onvoldoende voorraad: P (huidig 5, gevraagd 10)" ∧
    applyOp (receive_stock emptyDB "P" 5 none).1
      (.consume "P" 10 "PV" "005-26R01") = (receive_stock emptyDB "P" 5 none).1 := by
  have h := C2_insufficient_noop (receive_stock emptyDB "P" 5 none).1
    "P" "PV" "005-26R01" 10 (by decide)
  refine ⟨by decide, ?_, h.2.1⟩
  rw [h.1]
  rfl

/-- C3: the claim asserts that `use_stock`'s read-check-write-append runs
under serializable per-part isolation.  The code provides no such isolation:
`get_stock_row`, `set_stock` and `add_transaction` each open their own
connection and commit independently (`app.py` lines 131-158), so the steps
of two concurrent `use_stock("P", 3, ...)` calls can interleave.  In the
concrete interleaving `raceDemoDB` (both calls read balance 5 before either
writes) both checks pass — neither call raises `InsufficientStock` — and
both commit: the final balance is 2 while the movement log sums to −1, a
lost update producing a committed state that violates the ledger-consistency
invariant the isolation guarantee exists to protect. -/
theorem C3_no_isolation_lost_update :
    ¬ raceReadA < 3 ∧ ¬ raceReadB < 3 ∧
    balanceOf raceDemoDB "P" = 2 ∧
    logSum raceDemoDB "P" = -1 ∧
    balanceOf raceDemoDB "P" ≠ logSum raceDemoDB "P" := by decide

/-- C8 counterexample: `make_label_pdf` performs no validation of `count` —
called with 0 copies it runs its loop zero times and returns a zero-page
document, not a validation error (the function has no error outcome at
all; only the admin form's `min_value=1` widgets keep `count ≥ 1`). -/
theorem C8_zero_copies_counterexample :
    make_label_pdf "LSR-12345" 0 = [] := rfl

/-- C8 as amended: for every `copies ≥ 1` the document has exactly `copies`
pages and every page carries `part_id` verbatim both as QR payload and as
visible text; for `copies < 1` the function returns a zero-page document
(shown by the counterexample) instead of a validation error. -/
theorem C8_label_pages (pid : String) (copies : Int) (h : 1 ≤ copies) :
    ((make_label_pdf pid copies).length : Int) = copies ∧
    ∀ pg ∈ make_label_pdf pid copies,
      pg.qrPayload = pid ∧ pg.textLabel = pid := by
  constructor
  · simp only [make_label_pdf, List.length_replicate]
    omega
  · intro pg hpg
    rw [List.eq_of_mem_replicate hpg]
    exact ⟨rfl, rfl⟩

/-- Witness for C8 at the spec's own example: 3 labels for `"LSR-12345"`. -/
theorem C8_label_pages_witness :
    (1 : Int) ≤ 3 ∧ ((make_label_pdf "LSR-12345" 3).length : Int) = 3 :=
  ⟨by decide, (C8_label_pages "LSR-12345" 3 (by decide)).1⟩

/-- C4: whenever validation of a consume submission fails, the handler
returns the full error list — each of the four rules that is violated
contributes its message, not only the first — makes no notification attempt,
and performs no ledger mutation: the database (balances and movement log) is
returned unchanged. -/
theorem C4_validation_lists_all_rules (db : DB) (sess : Session)
    (env : EmailEnv) (smtp : Except String Unit) (qty : Int)
    (h : useFormErrors (stripString sess.spring_no)
      (normalize_initials sess.initials_raw)
      (normalize_order_no sess.order_raw) qty ≠ []) :
    (useFormSubmit db sess env smtp qty).db = db ∧
    (useFormSubmit db sess env smtp qty).emailAttempts = 0 ∧
    (useFormSubmit db sess env smtp qty).outcome =
      .validationErr (useFormErrors (stripString sess.spring_no)
        (normalize_initials sess.initials_raw)
        (normalize_order_no sess.order_raw) qty) ∧
    (stripString sess.spring_no = "" →
      "Scan eerst een QR-code (veernummer ontbreekt)." ∈
        useFormErrors (stripString sess.spring_no)
          (normalize_initials sess.initials_raw)
          (normalize_order_no sess.order_raw) qty) ∧
    (validate_initials (normalize_initials sess.initials_raw) = false →
      "Initialen moeten 2 letters zijn (bv. PV)." ∈
        useFormErrors (stripString sess.spring_no)
          (normalize_initials sess.initials_raw)
          (normalize_order_no sess.order_raw) qty) ∧
    (validate_order_ref (normalize_order_no sess.order_raw) = false →
      "Ordernummer ongeldig. Verwacht bv. 005-26R01 (ddd-yyLnnn...)." ∈
        useFormErrors (stripString sess.spring_no)
          (normalize_initials sess.initials_raw)
          (normalize_order_no sess.order_raw) qty) ∧
    (qty < 1 →
      "Aantal moet 1 of groter zijn." ∈
        useFormErrors (stripString sess.spring_no)
          (normalize_initials sess.initials_raw)
          (normalize_order_no sess.order_raw) qty) := by
  refine ⟨?_, ?_, ?_, ?_, ?_, ?_, ?_⟩
  · simp only [useFormSubmit, if_neg h]
  · simp only [useFormSubmit, if_neg h]
  · simp only [useFormSubmit, if_neg h]
  · intro hs
    simp [useFormErrors, hs]
  · intro hi
    simp [useFormErrors, hi]
  · intro ho
    simp [useFormErrors, ho]
  · intro hq
    simp [useFormErrors, hq]

/-- Witness for C4: an empty scan, bad initials, bad order number and a
non-positive quantity produce all four messages and leave an example
database untouched. -/
theorem C4_validation_lists_all_rules_witness :
    useFormErrors (stripString "") (normalize_initials "x")
      (normalize_order_no "nope") 0 ≠ [] ∧
    (useFormSubmit (receive_stock emptyDB "P" 5 none).1
      ⟨"", "", "x", "nope"⟩ ⟨none, none, none, none, none, none⟩
      (.ok ()) 0).db = (receive_stock emptyDB "P" 5 none).1 ∧
    "Aantal moet 1 of groter zijn." ∈
      useFormErrors (stripString "") (normalize_initials "x")
        (normalize_order_no "nope") 0 := by
  have h := C4_validation_lists_all_rules (receive_stock emptyDB "P" 5 none).1
    ⟨"", "", "x", "nope"⟩ ⟨none, none, none, none, none, none⟩
    (.ok ()) 0 (by decide)
  exact ⟨by decide, h.1, h.2.2.2.2.2.2 (by decide)⟩

/-- C9: when validation passes and `use_stock` commits, exactly one
notification attempt is made; the submit outcome records the pair
`send_email` returns; the committed database is the one `use_stock`
produced, independently of whether the notification succeeds or fails (no
undo, and `emailAttempts = 1` means no retry either); and with incomplete
SMTP configuration `send_email` returns the disabled result
`(false, message)` instead of raising. -/
theorem C9_single_notification (db db2 : DB) (sess : Session)
    (env : EmailEnv) (smtp smtp2 : Except String Unit) (qty : Int)
    (before after : Int)
    (hval : useFormErrors (stripString sess.spring_no)
      (normalize_initials sess.initials_raw)
      (normalize_order_no sess.order_raw) qty = [])
    (hok : use_stock db (stripString sess.spring_no) qty
      (normalize_initials sess.initials_raw)
      (normalize_order_no sess.order_raw) = .ok (db2, before, after)) :
    (useFormSubmit db sess env smtp qty).emailAttempts = 1 ∧
    (useFormSubmit db sess env smtp qty).db = db2 ∧
    (useFormSubmit db sess env smtp qty).outcome =
      .success before after (send_email env smtp).1 (send_email env smtp).2 ∧
    (useFormSubmit db sess env smtp2 qty).db = db2 ∧
    (emailEnvComplete env = false →
      send_email env smtp =
        (false, "SMTP/email vars ontbreken (mail niet verstuurd).")) := by
  refine ⟨?_, ?_, ?_, ?_, ?_⟩
  · simp [useFormSubmit, hval, hok]
  · simp [useFormSubmit, hval, hok]
  · simp [useFormSubmit, hval, hok]
  · simp [useFormSubmit, hval, hok]
  · intro hmiss
    simp [send_email, hmiss]

/-- Witness for C9: a valid submission against 10 on hand with no SMTP
configuration commits the consumption and reports the disabled-email
result. -/
theorem C9_single_notification_witness :
    (useFormSubmit (receive_stock emptyDB "X1" 10 none).1
      ⟨"X1", "X1", "PV", "005-26R01"⟩ ⟨none, none, none, none, none, none⟩
      (.ok ()) 4).emailAttempts = 1 ∧
    (useFormSubmit (receive_stock emptyDB "X1" 10 none).1
      ⟨"X1", "X1", "PV", "005-26R01"⟩ ⟨none, none, none, none, none, none⟩
      (.ok ()) 4).db =
      ⟨[("X1", 6)], [⟨"RECEIVE", "X1", 10, none, none, none⟩,
        ⟨"USE", "X1", 4, some "PV", some "005-26R01", none⟩]⟩ ∧
    send_email ⟨none, none, none, none, none, none⟩ (.ok ()) =
      (false, "SMTP/email vars ontbreken (mail niet verstuurd).") := by
  have h := C9_single_notification (receive_stock emptyDB "X1" 10 none).1
    ⟨[("X1", 6)], [⟨"RECEIVE", "X1", 10, none, none, none⟩,
      ⟨"USE", "X1", 4, some "PV", some "005-26R01", none⟩]⟩
    ⟨"X1", "X1", "PV", "005-26R01"⟩ ⟨none, none, none, none, none, none⟩
    (.ok ()) (.ok ()) 4 10 6 (by decide) rfl
  exact ⟨h.1, h.2.1, h.2.2.2.2 (by decide)⟩

/-- C7: scanning a non-empty value `v1` into a session not already armed
with it beeps once and arms the session; feeding the same value again beeps
no second time (exactly one notification for a repeated scan), while a
different value `v2` beeps again (two notifications for two values).  After
a successful commit the handler clears `spring_no` and `last_scanned` — the
guard is back to EMPTY, ready for the next scan — and when the commit fails
(`use_stock` raises) the session is returned unchanged, still armed with the
same value, so no rescan is needed. -/
theorem C7_dedup_guard (sess : Session) (v1 v2 : String)
    (db_ok db_err db2 : DB) (env : EmailEnv) (smtp : Except String Unit)
    (qty : Int) (before after : Int) (msg : String)
    (h1t : stripString v1 = v1) (h1 : v1 ≠ "")
    (hfresh : sess.last_scanned ≠ v1)
    (h2t : stripString v2 = v2) (h2 : v2 ≠ "") (hne : v2 ≠ v1)
    (hval : useFormErrors v1 (normalize_initials sess.initials_raw)
      (normalize_order_no sess.order_raw) qty = [])
    (hok : use_stock db_ok v1 qty (normalize_initials sess.initials_raw)
      (normalize_order_no sess.order_raw) = .ok (db2, before, after))
    (herr : use_stock db_err v1 qty (normalize_initials sess.initials_raw)
      (normalize_order_no sess.order_raw) = .error msg) :
    (scanStep sess (.pyS v1)).2 = true ∧
    (scanStep (scanStep sess (.pyS v1)).1 (.pyS v1)).2 = false ∧
    (scanStep (scanStep sess (.pyS v1)).1 (.pyS v2)).2 = true ∧
    (useFormSubmit db_ok (scanStep sess (.pyS v1)).1 env smtp qty).sess =
      { (scanStep sess (.pyS v1)).1 with
        spring_no := "", last_scanned := "" } ∧
    (useFormSubmit db_err (scanStep sess (.pyS v1)).1 env smtp qty).sess =
      (scanStep sess (.pyS v1)).1 := by
  have hs1 : scanStep sess (.pyS v1) =
      ({ sess with spring_no := v1, last_scanned := v1 }, true) := by
    simp only [scanStep, normalize_scan_value, h1t]
    rw [if_pos h1, if_pos (Ne.symm hfresh)]
  have hs2 : scanStep { sess with spring_no := v1, last_scanned := v1 }
      (.pyS v1) = ({ sess with spring_no := v1, last_scanned := v1 }, false) := by
    simp only [scanStep, normalize_scan_value, h1t]
    rw [if_pos h1, if_neg (fun hc : v1 ≠ v1 => hc rfl)]
  have hs3 : (scanStep { sess with spring_no := v1, last_scanned := v1 }
      (.pyS v2)).2 = true := by
    simp only [scanStep, normalize_scan_value, h2t]
    rw [if_pos h2, if_pos hne]
  refine ⟨by rw [hs1], by rw [hs1, hs2], by rw [hs1]; exact hs3, ?_, ?_⟩
  · rw [hs1]
    simp [useFormSubmit, h1t, hval, hok]
  · rw [hs1]
    simp [useFormSubmit, h1t, hval, herr]

/-- Witness for C7: scanning `"X1"` twice beeps once, `"X1"` then `"X2"`
beeps twice, against a stock of 10 for `"X1"` (commit side) and an empty
database (failure side). -/
theorem C7_dedup_guard_witness :
    (scanStep ⟨"", "", "PV", "005-26R01"⟩ (.pyS "X1")).2 = true ∧
    (scanStep (scanStep ⟨"", "", "PV", "005-26R01"⟩ (.pyS "X1")).1
      (.pyS "X1")).2 = false ∧
    (scanStep (scanStep ⟨"", "", "PV", "005-26R01"⟩ (.pyS "X1")).1
      (.pyS "X2")).2 = true := by
  have h := C7_dedup_guard ⟨"", "", "PV", "005-26R01"⟩ "X1" "X2"
    (receive_stock emptyDB "X1" 10 none).1 emptyDB
    ⟨[("X1", 6)], [⟨"RECEIVE", "X1", 10, none, none, none⟩,
      ⟨"USE", "X1", 4, some "PV", some "005-26R01", none⟩]⟩
    ⟨none, none, none, none, none, none⟩ (.ok ()) 4 10 6
    "Onvoldoende voorraad: X1 (huidig 0, gevraagd 4)"
    (by decide) (by decide) (by decide) (by decide) (by decide) (by decide)
    (by decide) rfl rfl
  exact ⟨h.1, h.2.1, h.2.2.1⟩

/-- C10: `normalize_scan_value` maps `None` to `""`; on a dict a candidate
key whose value is falsy (such as `""` or `0`) — or absent — is skipped and
the next candidate tried; when no candidate yields a truthy value the result
falls back to the stripped `str` of the whole dict, and a found truthy value
is rendered with `str` and stripped; any other non-string input is rendered
with `str` and stripped. -/
theorem C10_scan_payload_normalization (es : PyEntries) (k : String)
    (ks : List String) (v w : PyVal) (n : Int) :
    normalize_scan_value .pyNone = "" ∧
    (dictGet es k = some v → pyTruthy v = false →
      firstTruthyCandidate es (k :: ks) = firstTruthyCandidate es ks) ∧
    (dictGet es k = none →
      firstTruthyCandidate es (k :: ks) = firstTruthyCandidate es ks) ∧
    (firstTruthyCandidate es candidateKeys = none →
      normalize_scan_value (.pyDict es) = stripString (pyStr (.pyDict es))) ∧
    (firstTruthyCandidate es candidateKeys = some w →
      normalize_scan_value (.pyDict es) = stripString (pyStr w)) ∧
    normalize_scan_value (.pyI n) = stripString (pyStr (.pyI n)) := by
  refine ⟨rfl, ?_, ?_, ?_, ?_, rfl⟩
  · intro hget hfalsy
    simp [firstTruthyCandidate, hget, hfalsy]
  · intro hget
    simp [firstTruthyCandidate, hget]
  · intro hnone
    simp [normalize_scan_value, hnone]
  · intro hsome
    simp [normalize_scan_value, hsome]

/-- Witness for C10 on the dict `\x7b"text": "", "data": 0\x7d`: the falsy
`"text"` candidate is skipped and, with every candidate falsy, the result is
the stripped rendering of the whole dict. -/
theorem C10_scan_payload_normalization_witness :
    dictGet (.cons "text" (.pyS "") (.cons "data" (.pyI 0) .nil)) "text" =
      some (.pyS "") ∧
    pyTruthy (.pyS "") = false ∧
    firstTruthyCandidate (.cons "text" (.pyS "") (.cons "data" (.pyI 0) .nil))
        ("text" :: ["data", "raw", "result", "value"]) =
      firstTruthyCandidate (.cons "text" (.pyS "") (.cons "data" (.pyI 0) .nil))
        ["data", "raw", "result", "value"] ∧
    normalize_scan_value
        (.pyDict (.cons "text" (.pyS "") (.cons "data" (.pyI 0) .nil))) =
      stripString
        (pyStr (.pyDict (.cons "text" (.pyS "") (.cons "data" (.pyI 0) .nil)))) := by
  have h := C10_scan_payload_normalization
    (.cons "text" (.pyS "") (.cons "data" (.pyI 0) .nil)) "text"
    ["data", "raw", "result", "value"] (.pyS "") (.pyS "") 7
  exact ⟨rfl, rfl, h.2.1 rfl rfl, h.2.2.2.1 rfl⟩

/-! ## Character and regex lemmas for C5/C6 -/

theorem charToNat_ofNat {n : Nat} (h : n < 55296) :
    (Char.ofNat n).toNat = n := by
  rw [Char.ofNat, dif_pos (Or.inl h)]
  rfl

theorem charIsUpper_iff (c : Char) :
    c.isUpper = true ↔ 65 ≤ c.toNat ∧ c.toNat ≤ 90 := by
  simp only [Char.isUpper, Bool.and_eq_true, decide_eq_true_eq, ge_iff_le,
    UInt32.le_def, BitVec.le_def]
  exact Iff.rfl

theorem charIsLower_iff (c : Char) :
    c.isLower = true ↔ 97 ≤ c.toNat ∧ c.toNat ≤ 122 := by
  simp only [Char.isLower, Bool.and_eq_true, decide_eq_true_eq, ge_iff_le,
    UInt32.le_def, BitVec.le_def]
  exact Iff.rfl

theorem toUpper_toNat_of_lower {c : Char} (h1 : 97 ≤ c.toNat)
    (h2 : c.toNat ≤ 122) : (Char.toUpper c).toNat = c.toNat - 32 := by
  unfold Char.toUpper
  rw [if_pos ⟨h1, h2⟩]
  exact charToNat_ofNat (by omega)

theorem toUpper_eq_self {c : Char} (h : ¬(97 ≤ c.toNat ∧ c.toNat ≤ 122)) :
    Char.toUpper c = c := by
  unfold Char.toUpper
  rw [if_neg h]

theorem toUpper_isUpper_of_alpha {c : Char} (h : c.isAlpha = true) :
    (Char.toUpper c).isUpper = true := by
  rcases (Bool.or_eq_true _ _).mp (by simpa [Char.isAlpha] using h) with hu | hl
  · have := (charIsUpper_iff c).mp hu
    rw [toUpper_eq_self (by omega)]
    exact hu
  · have := (charIsLower_iff c).mp hl
    rw [charIsUpper_iff, toUpper_toNat_of_lower this.1 this.2]
    omega

theorem toUpper_ne_space {c : Char} (h : c ≠ ' ') : Char.toUpper c ≠ ' ' := by
  by_cases hl : 97 ≤ c.toNat ∧ c.toNat ≤ 122
  · intro he
    have hn := congrArg Char.toNat he
    rw [toUpper_toNat_of_lower hl.1 hl.2] at hn
    have hsp : (' ' : Char).toNat = 32 := rfl
    omega
  · rw [toUpper_eq_self hl]
    exact h

theorem toUpper_idem (c : Char) :
    Char.toUpper (Char.toUpper c) = Char.toUpper c := by
  by_cases hl : 97 ≤ c.toNat ∧ c.toNat ≤ 122
  · have := toUpper_toNat_of_lower hl.1 hl.2
    exact toUpper_eq_self (by omega)
  · rw [toUpper_eq_self hl]
    exact toUpper_eq_self hl

theorem stringToList_mk (l : List Char) : (String.mk l).toList = l := rfl

theorem mem_of_mem_stripList {c : Char} {l : List Char}
    (h : c ∈ stripList l) : c ∈ l := by
  unfold stripList at h
  have h1 := List.dropWhile_subset _ (List.mem_reverse.mp h)
  exact List.dropWhile_subset _ (List.mem_reverse.mp h1)

theorem orderCore_iff (l : List Char) :
    orderCore l = true ↔ SpecOrderList l := by
  constructor
  · intro h
    unfold orderCore at h
    split at h
    · rename_i d1 d2 d3 dash y1 y2 ltr rest
      simp only [Bool.and_eq_true, beq_iff_eq, List.all_eq_true,
        Bool.not_eq_true', List.isEmpty_eq_false] at h
      obtain ⟨⟨⟨⟨⟨⟨⟨⟨h1, h2⟩, h3⟩, hd⟩, h4⟩, h5⟩, h6⟩, hne⟩, hall⟩ := h
      subst hd
      exact ⟨d1, d2, d3, y1, y2, ltr, rest, rfl, h1, h2, h3, h4, h5, h6,
        hne, hall⟩
    · simp at h
  · rintro ⟨d1, d2, d3, y1, y2, ltr, ds, rfl, h1, h2, h3, h4, h5, h6,
      hne, hall⟩
    simp only [orderCore, Bool.and_eq_true, beq_iff_eq, List.all_eq_true,
      Bool.not_eq_true', List.isEmpty_eq_false]
    refine ⟨⟨⟨⟨⟨⟨⟨⟨h1, h2⟩, h3⟩, trivial⟩, h4⟩, h5⟩, h6⟩, hne⟩, hall⟩

theorem initialsCore_iff (l : List Char) :
    initialsCore l = true ↔ SpecInitialsList l := by
  constructor
  · intro h
    unfold initialsCore at h
    split at h
    · rename_i a b
      simp only [Bool.and_eq_true] at h
      exact ⟨a, b, rfl, h.1, h.2⟩
    · simp at h
  · rintro ⟨a, b, rfl, h1, h2⟩
    simp [initialsCore, h1, h2]

theorem pyMatchDollar_iff (core : List Char → Bool) (P : List Char → Prop)
    (hcore : ∀ l, core l = true ↔ P l) (l : List Char) :
    pyMatchDollar core l = true ↔
      P l ∨ ∃ l0, l = l0 ++ ['\n'] ∧ P l0 := by
  unfold pyMatchDollar
  simp only [Bool.or_eq_true, Bool.and_eq_true, beq_iff_eq, hcore]
  constructor
  · rintro (h | ⟨hlast, hcore2⟩)
    · exact Or.inl h
    · obtain ⟨l0, rfl⟩ := List.getLast?_eq_some_iff.mp hlast
      rw [List.dropLast_concat] at hcore2
      exact Or.inr ⟨l0, rfl, hcore2⟩
  · rintro (h | ⟨l0, rfl, h0⟩)
    · exact Or.inl h
    · refine Or.inr ⟨?_, ?_⟩
      · simp [List.getLast?_concat]
      · rw [List.dropLast_concat]
        exact h0

/-- C5 counterexample, at two explicit inputs.  First, `normalize_order_no`
does not remove all whitespace: on `"005\t-26R01"` the inner tab survives
(the code replaces only the space character), so the result still contains a
whitespace character.  Second, `validate_order_ref` is not exactly the
grammar `\d{3}-\d{2}[A-Z]\d+`: Python's `$` also matches just before a
single trailing newline, so `"005-26R01\n"` validates as true although it is
not in the grammar's language. -/
theorem C5_counterexample :
    (normalize_order_no "005\t-26R01").toList.any Char.isWhitespace = true ∧
    validate_order_ref "005-26R01\n" = true ∧
    ¬ SpecOrderList (String.toList "005-26R01\n") := by
  refine ⟨by decide, by decide, ?_⟩
  intro hspec
  exact absurd ((orderCore_iff _).mpr hspec) (by decide)

/-- C5 as amended: `normalize_order_no` removes every space character
(U+0020) — not every whitespace character — upper-cases, strips outer
whitespace, and never fails (it is total by construction); its result
contains no space and is upper-case-fixed.  `validate_order_ref` returns
true exactly when its argument, or its argument minus one trailing newline,
is in the language of `\d{3}-\d{2}[A-Z]\d+`.  The spec's three concrete
examples hold as stated. -/
theorem C5_order_ref_normalization (s t : String) :
    (∀ c ∈ (normalize_order_no s).toList, c ≠ ' ') ∧
    (∀ c ∈ (normalize_order_no s).toList, c.toUpper = c) ∧
    (validate_order_ref t = true ↔
      SpecOrderList t.toList ∨
        ∃ l, t.toList = l ++ ['\n'] ∧ SpecOrderList l) ∧
    normalize_order_no "  005-26r01 " = "005-26R01" ∧
    validate_order_ref "005-26R01" = true ∧
    validate_order_ref "5-26R1" = false := by
  refine ⟨?_, ?_,
    pyMatchDollar_iff orderCore SpecOrderList orderCore_iff t.toList,
    by decide, by decide, by decide⟩
  · intro c hc
    have hc2 : c ∈ (s.toList.filter (fun c => c != ' ')).map Char.toUpper :=
      mem_of_mem_stripList hc
    obtain ⟨a, ha, rfl⟩ := List.mem_map.mp hc2
    have ha2 := (List.mem_filter.mp ha).2
    exact toUpper_ne_space (by simpa using ha2)
  · intro c hc
    have hc2 : c ∈ (s.toList.filter (fun c => c != ' ')).map Char.toUpper :=
      mem_of_mem_stripList hc
    obtain ⟨a, ha, rfl⟩ := List.mem_map.mp hc2
    exact toUpper_idem a

/-- Witness for C5 at the spec's concrete examples. -/
theorem C5_order_ref_normalization_witness :
    normalize_order_no "  005-26r01 " = "005-26R01" ∧
    validate_order_ref "005-26R01" = true ∧
    validate_order_ref "5-26R1" = false := by
  have h := C5_order_ref_normalization "  005-26r01 " "005-26R01"
  exact ⟨h.2.2.2.1, h.2.2.2.2.1, h.2.2.2.2.2⟩

/-- C6 counterexample: `validate_initials` is not true exactly for strings
of two uppercase letters — Python's `$` also matches just before a single
trailing newline, so `"AB\n"` validates as true. -/
theorem C6_counterexample :
    validate_initials "AB\n" = true ∧
    ¬ SpecInitialsList (String.toList "AB\n") := by
  refine ⟨by decide, ?_⟩
  intro hspec
  exact absurd ((initialsCore_iff _).mpr hspec) (by decide)

/-- C6 as amended: `normalize_initials` keeps only alphabetic characters,
upper-cases them and takes the first two — its result has at most two
characters, all uppercase, and exactly two whenever the input has at least
two alphabetic characters — and never fails (total by construction);
`validate_initials` returns true exactly for two uppercase letters, possibly
followed by one trailing newline.  The spec's example
`normalize_initials("p.v.") = "PV"` holds. -/
theorem C6_initials_normalization (s t : String) :
    (normalize_initials s).toList.length ≤ 2 ∧
    (∀ c ∈ (normalize_initials s).toList, c.isUpper = true) ∧
    (2 ≤ (s.toList.filter Char.isAlpha).length →
      (normalize_initials s).toList.length = 2) ∧
    normalize_initials "p.v." = "PV" ∧
    (validate_initials t = true ↔
      SpecInitialsList t.toList ∨
        ∃ l, t.toList = l ++ ['\n'] ∧ SpecInitialsList l) := by
  refine ⟨?_, ?_, ?_, by decide,
    pyMatchDollar_iff initialsCore SpecInitialsList initialsCore_iff t.toList⟩
  · simp [normalize_initials]
  · intro c hc
    have hc2 : c ∈ (s.toList.filter Char.isAlpha).map Char.toUpper :=
      List.mem_of_mem_take hc
    obtain ⟨a, ha, rfl⟩ := List.mem_map.mp hc2
    exact toUpper_isUpper_of_alpha (List.mem_filter.mp ha).2
  · intro hlen
    simp only [normalize_initials, stringToList_mk, List.length_take,
      List.length_map]
    omega

/-- Witness for C6 at the spec's concrete example. -/
theorem C6_initials_normalization_witness :
    normalize_initials "p.v." = "PV" ∧
    (normalize_initials "p.v.").toList.length = 2 := by
  have h := C6_initials_normalization "p.v." "PV"
  exact ⟨h.2.2.2.1, h.2.2.1 (by decide)⟩

end Veer
